/-
Verification of the NLP-SQLizer natural-language-to-query pipeline
(backend/app/ai/nl2sql.py, nl2mongo.py, llm.py, query_intent.py and the
/ai/ask route in backend/app/routes_ai.py).

The Python code is shallowly embedded: each relevant Python function is
translated into an executable Lean definition over explicit data.  External
effects (the sqlglot parser, the HTTP client, the database driver, the
rapidfuzz scorer) are modeled as explicit inputs: a parse result, an HTTP
outcome, a plan-fetch outcome, a scoring function.  Python floats that only
carry heuristic confidences/scores are modeled as exact rationals.
-/
import Mathlib

namespace NLPSQLizer

/-! ## Python string primitives used by the embedded code -/

/-- Python whitespace characters recognized by str.strip (ASCII model). -/
def isPySpace (c : Char) : Bool :=
  c = ' ' || c = '\t' || c = '\n' || c = '\r' || c = Char.ofNat 11 || c = Char.ofNat 12

/-- Python str.strip() on character lists: drop leading and trailing
whitespace. -/
def stripChars (l : List Char) : List Char :=
  ((l.dropWhile isPySpace).reverse.dropWhile isPySpace).reverse

/-- Python str.strip(): drop leading and trailing whitespace. -/
def pyStrip (s : String) : String := ⟨stripChars s.data⟩

/-- Python str.rstrip(";"): drop trailing semicolons. -/
def pyRstripSemi (s : String) : String :=
  ⟨(s.data.reverse.dropWhile (· = ';')).reverse⟩

/-- Python str.lower() (ASCII model). -/
def pyLower (s : String) : String := ⟨s.data.map Char.toLower⟩

/-- Python str.upper() (ASCII model). -/
def pyUpper (s : String) : String := ⟨s.data.map Char.toUpper⟩

/-- Python str.startswith on character lists. -/
def pyStartsWith (s pre : String) : Bool := pre.data.isPrefixOf s.data

/-- Python str.endswith on character lists. -/
def pyEndsWith (s suf : String) : Bool := suf.data.reverse.isPrefixOf s.data.reverse

/-- Containment of one character list in another (Python substring test). -/
def listIn (needle : List Char) : List Char → Bool
  | [] => needle.isPrefixOf []
  | c :: rest => needle.isPrefixOf (c :: rest) || listIn needle rest

/-- Python "needle in hay" substring test. -/
def pyIn (needle hay : String) : Bool := listIn needle.data hay.data

/-- Membership of a single character in a string (Python "c in s"). -/
def pyCharIn (c : Char) (s : String) : Bool := s.data.contains c

/-- Split a character list at newline characters (Python split on a newline
separator). -/
def splitLinesChars : List Char → List (List Char)
  | [] => [[]]
  | c :: cs =>
    let r := splitLinesChars cs
    if c = '\n' then [] :: r
    else
      match r with
      | [] => [[c]]
      | h :: t => (c :: h) :: t

/-- Python s.split backslash-n on strings. -/
def pySplitNL (s : String) : List String := (splitLinesChars s.data).map String.mk

/-- Convenience: an Except value is ok. -/
def exceptIsOk {ε α : Type} : Except ε α → Bool
  | .ok _ => true
  | .error _ => false

/-! ## SQL expression trees (model of the sqlglot nodes the code inspects)

ensure_select_only looks only at the top-level node class; referenced_tables
walks the whole tree collecting Table nodes; enforce_limit unwraps one
Subquery and mutates the limit slot of a top-level Select.  The model keeps
exactly that structure: Table nodes carry an optional name (t.this may be
None), Select nodes carry child subtrees and an optional LIMIT literal, and
the blocked statement kinds of BLOCK_KINDS are leaf constructors, since the
code rejects them before ever looking inside. -/

inductive SqlNode where
  | table (name : Option String)
  | select (children : List SqlNode) (lim : Option Nat)
  | subquery (inner : SqlNode)
  | union (left right : SqlNode)
  | withCte (inner : SqlNode)
  | insert
  | update
  | delete
  | create
  | drop
  | alter
  | truncate
  | merge
  | command

/-- Python class name of a node, as sqlglot exposes it via __class__.__name__. -/
def className : SqlNode → String
  | .table _ => "Table"
  | .select _ _ => "Select"
  | .subquery _ => "Subquery"
  | .union _ _ => "Union"
  | .withCte _ => "With"
  | .insert => "Insert"
  | .update => "Update"
  | .delete => "Delete"
  | .create => "Create"
  | .drop => "Drop"
  | .alter => "Alter"
  | .truncate => "Truncate"
  | .merge => "Merge"
  | .command => "Command"

/-- Statement kinds rejected outright (nl2sql.py BLOCK_KINDS). -/
def BLOCK_KINDS : List String :=
  ["Insert", "Update", "Delete", "Create", "Drop", "Alter", "Truncate", "Merge"]

/-- The isinstance check of ensure_select_only: Select, Subquery, Union or With. -/
def isSelectDerived : SqlNode → Bool
  | .select _ _ => true
  | .subquery _ => true
  | .union _ _ => true
  | .withCte _ => true
  | _ => false

/-- Validation error raised by the safety validator (nl2sql.py SQLSafetyError). -/
structure SQLSafetyError where
  msg : String
deriving DecidableEq

/-- ensure_select_only (nl2sql.py).  The sqlglot parse is an external effect,
so the function takes the parse result: an error message on parse failure,
otherwise the parsed tree. -/
def ensure_select_only (parseResult : Except String SqlNode) :
    Except SQLSafetyError SqlNode :=
  match parseResult with
  | .error e => .error ⟨"SQL parse error: " ++ e⟩
  | .ok parsed =>
    if BLOCK_KINDS.contains (className parsed) then
      .error ⟨"Only SELECT statements are allowed."⟩
    else if !(isSelectDerived parsed) then
      .error ⟨"Statement must be a SELECT."⟩
    else
      .ok parsed

/-- Name extracted from a Table node: Python (t.this and t.this.name or "") is
the empty string when t.this is absent or its name is empty. -/
def tableNameOrEmpty : Option String → String
  | none => ""
  | some s => s

mutual
/-- All Table-node names in the tree, in traversal order (expr.find_all(Table)). -/
def collectTables : SqlNode → List String
  | .table n => [tableNameOrEmpty n]
  | .select children _ => collectTablesList children
  | .subquery inner => collectTables inner
  | .union left right => collectTables left ++ collectTables right
  | .withCte inner => collectTables inner
  | .insert => []
  | .update => []
  | .delete => []
  | .create => []
  | .drop => []
  | .alter => []
  | .truncate => []
  | .merge => []
  | .command => []

def collectTablesList : List SqlNode → List String
  | [] => []
  | e :: es => collectTables e ++ collectTablesList es
end

/-- referenced_tables (nl2sql.py): sorted(set(n for n in names if n)). -/
def referenced_tables (expr : SqlNode) : List String :=
  List.insertionSort (fun a b : String => a ≤ b)
    ((collectTables expr).filter (fun n => n ≠ "")).dedup

/-- ensure_tables_allowed (nl2sql.py): raise on the first referenced table
that is not a key of the slice.  The slice is an association list because a
Python dict preserves insertion order. -/
def ensure_tables_allowed (expr : SqlNode) (allowed : List (String × List String)) :
    Except SQLSafetyError Unit :=
  let used := referenced_tables expr
  let allowed_tables := allowed.map Prod.fst
  match used.find? (fun t => !(allowed_tables.contains t)) with
  | some t => .error ⟨"Table not allowed in context: " ++ t⟩
  | none => .ok ()

/-- enforce_limit (nl2sql.py): unwrap one Subquery; if the target is a Select
with no limit argument, set its limit to max_rows; all other shapes are
returned unchanged. -/
def enforce_limit (expr : SqlNode) (max_rows : Nat) : SqlNode :=
  match expr with
  | .subquery (.select children none) => .subquery (.select children (some max_rows))
  | .select children none => .select children (some max_rows)
  | e => e

mutual
/-- Number of LIMIT clauses anywhere in the tree. -/
def countLimits : SqlNode → Nat
  | .table _ => 0
  | .select children lim => (match lim with | some _ => 1 | none => 0) + countLimitsList children
  | .subquery inner => countLimits inner
  | .union left right => countLimits left + countLimits right
  | .withCte inner => countLimits inner
  | .insert => 0
  | .update => 0
  | .delete => 0
  | .create => 0
  | .drop => 0
  | .alter => 0
  | .truncate => 0
  | .merge => 0
  | .command => 0

def countLimitsList : List SqlNode → Nat
  | [] => 0
  | e :: es => countLimits e + countLimitsList es
end

/-- The LIMIT of the top-level SELECT, looking through one Subquery wrapper,
mirroring the target that enforce_limit manipulates. -/
def topLevelLimit : SqlNode → Option Nat
  | .select _ lim => lim
  | .subquery (.select _ lim) => lim
  | _ => none

/-! ## The EXPLAIN capacity gate of the /ai/ask route (routes_ai.py)

The database round-trips are external effects, so explain takes the outcome
of the EXPLAIN statement: either the fetched rows of plan text or a driver
exception.  The route then searches the joined plan text for the first
occurrence of the pattern rows= followed by digits (re.search with the
pattern rows=(backslash-d+)) and rejects when the captured number exceeds
100000, all before opening the execution connection. -/

/-- explain (nl2sql.py): join the fetched plan rows with newlines; any
exception from the EXPLAIN round-trip is swallowed and yields the empty
string. -/
def explain (fetched : Except String (List String)) : String :=
  match fetched with
  | .ok rows => String.intercalate "\n" rows
  | .error _ => ""

/-- Leading decimal digits of a character list. -/
def takeDigits : List Char → List Char
  | [] => []
  | c :: cs => if c.isDigit then c :: takeDigits cs else []

/-- Numeric value of a digit list. -/
def digitsVal (l : List Char) : Nat :=
  l.foldl (fun acc c => acc * 10 + (c.toNat - 48)) 0

/-- Scan for the first position where the text matches rows= followed by at
least one digit, and return the maximal digit run there, exactly as
re.search with pattern rows=(one or more digits) captures it. -/
def rowsTokenAux : List Char → Option Nat
  | [] => none
  | c :: cs =>
    if ['r', 'o', 'w', 's', '='].isPrefixOf (c :: cs) then
      match takeDigits ((c :: cs).drop 5) with
      | [] => rowsTokenAux cs
      | ds => some (digitsVal ds)
    else rowsTokenAux cs

/-- First estimated-row-count token of a plan text. -/
def firstRowsToken (s : String) : Option Nat := rowsTokenAux s.data

/-- Observable steps of the SQL branch of ai_ask after query generation:
safety validation, the EXPLAIN round-trip, the capacity rejection, and the
execute_readonly call. -/
inductive PipelineEvent where
  | validateStep
  | explainStep
  | rejectStep
  | executeStep
deriving DecidableEq

/-- Event trace of the SQL branch of ai_ask (routes_ai.py) from
ensure_select_only on, for a draft that passed the aggregation/structure
soft checks: a SQLSafetyError returns an error response at once (no
database connection is opened); otherwise the route runs enforce_limit,
fetches the plan on a first connection, applies the rows= capacity gate,
and only then executes on a second connection. -/
def ai_ask_sql (parseResult : Except String SqlNode)
    (allowed : List (String × List String)) (limit : Nat)
    (planFetch : Except String (List String)) : List PipelineEvent :=
  match ensure_select_only parseResult with
  | .error _ => [.validateStep, .rejectStep]
  | .ok expr =>
    match ensure_tables_allowed expr allowed with
    | .error _ => [.validateStep, .rejectStep]
    | .ok _ =>
      let _sql_final := enforce_limit expr limit
      let plan := explain planFetch
      let plan := if plan = "" then "" else plan
      match firstRowsToken plan with
      | some n =>
        if n > 100000 then [.validateStep, .explainStep, .rejectStep]
        else [.validateStep, .explainStep, .executeStep]
      | none => [.validateStep, .explainStep, .executeStep]

/-! ## The LLM client (llm.py)

The HTTP round-trip is an external effect, so chat_complete takes the
outcome of the POST to /chat/completions.  The code catches every httpx
failure class and re-raises LLMNotConfigured with a remediation message;
only a successful response returns text. -/

/-- The llm.py settings trio; pydantic loads each as an optional string. -/
structure LLMSettings where
  LLM_BASE_URL : Option String
  LLM_MODEL : Option String
  LLM_API_KEY : Option String

/-- Python falsiness of an optional string: None or the empty string. -/
def optFalsy : Option String → Bool
  | none => true
  | some s => s = ""

/-- Outcome of the HTTP call made inside chat_complete. -/
inductive HttpOutcome where
  | success (body : String)
  | timeoutExc
  | connectExc
  | statusExc (code : Nat) (text : String)
  | readTimeoutExc
deriving DecidableEq

/-- The only exception class llm.py defines. -/
inductive LLMException where
  | llmNotConfigured (msg : String)
deriving DecidableEq

/-- The configuration check of the _client helper (llm.py): raise
LLMNotConfigured when the base URL or the model name is missing. -/
def client_config_check (s : LLMSettings) : Except LLMException Unit :=
  if optFalsy s.LLM_BASE_URL || optFalsy s.LLM_MODEL then
    .error (.llmNotConfigured "LLM not configured. Set LLM_BASE_URL and LLM_MODEL in .env")
  else
    .ok ()

/-- chat_complete (llm.py): the configuration failure from _client
propagates; every httpx failure (timeout, connect, HTTP status, read
timeout) is caught and re-raised as LLMNotConfigured with a remediation
message; a successful response returns the stripped assistant text.
Numeric interpolations of the Python messages (the timeout value) are
elided; the string parts are kept. -/
def chat_complete (s : LLMSettings) (outcome : HttpOutcome) : Except LLMException String :=
  match client_config_check s with
  | .error e => .error e
  | .ok _ =>
    match outcome with
    | .success body => .ok (pyStrip body)
    | .timeoutExc =>
      .error (.llmNotConfigured
        ("LLM request timed out. The model (" ++ (s.LLM_MODEL.getD "") ++
         ") may be too slow or the request too complex. Try increasing the timeout or using a faster model."))
    | .connectExc =>
      .error (.llmNotConfigured
        ("Could not connect to LLM service at " ++ (s.LLM_BASE_URL.getD "") ++
         ". Please ensure the LLM service is running and LLM_BASE_URL is correct in your .env file."))
    | .statusExc code text =>
      .error (.llmNotConfigured
        ("LLM service returned error " ++ toString code ++ ": " ++ text ++
         ". Please check your LLM configuration."))
    | .readTimeoutExc =>
      .error (.llmNotConfigured
        ("LLM read timeout. The model (" ++ (s.LLM_MODEL.getD "") ++
         ") is taking too long to respond. Try increasing the timeout or using a faster model."))

/-- True for the outcomes that the except clauses of chat_complete catch. -/
def isHttpFailure : HttpOutcome → Bool
  | .success _ => false
  | _ => true

/-- True when the call failed with the LLMNotConfigured exception class. -/
def isNotConfiguredErr : Except LLMException String → Bool
  | .error (.llmNotConfigured _) => true
  | .ok _ => false

/-! ## The document-store gate (_handle_mongodb_query in routes_ai.py and
execute_mongodb_query in nl2mongo.py)

The generated query object is a parsed JSON dict; the model keeps the keys
the code inspects.  A pipeline stage only matters through being a dict and
through its key set. -/

/-- One aggregation-pipeline stage: a JSON object with its key list, or a
non-object entry. -/
inductive MongoStage where
  | dictStage (keys : List String)
  | nonDict
deriving DecidableEq

/-- The query object the document-store path works with: the collection
name, the optional pipeline and find entries (their inner filter content is
never inspected before execution), and the optional numeric limit. -/
structure MongoQuery where
  collection : Option String
  pipeline : Option (List MongoStage)
  findQ : Option Unit
  limit : Option Nat
deriving DecidableEq

/-- The pre-execution checks of execute_mongodb_query (nl2mongo.py): a
missing or empty collection name raises; then the query must carry a
pipeline or a find entry, otherwise it raises; nothing else is checked
before the query runs against the database. -/
def execute_mongodb_query_checks (q : MongoQuery) : Except String MongoQuery :=
  match q.collection with
  | none => .error "Query must specify a collection"
  | some c =>
    if c = "" then .error "Query must specify a collection"
    else
      match q.pipeline with
      | some _ => .ok q
      | none =>
        match q.findQ with
        | some _ => .ok q
        | none => .error "Query must have either pipeline or find"

/-- The limit clamp of _handle_mongodb_query (routes_ai.py):
query_dict limit becomes min(limit, query_dict.get limit 100). -/
def handle_mongodb_limit (q : MongoQuery) (limit : Nat) : MongoQuery :=
  ⟨q.collection, q.pipeline, q.findQ, some (min limit (q.limit.getD 100))⟩

/-- The validation performed by _handle_mongodb_query between LLM generation
and execution, with the slice that select_relevant_mongo returned in scope:
the route clamps the limit and calls execute_mongodb_query; no check
against the slice keys ever happens. -/
def handle_mongodb_gate (allowed : List (String × List String))
    (q : MongoQuery) (limit : Nat) : Except String MongoQuery :=
  let _slice := allowed
  execute_mongodb_query_checks (handle_mongodb_limit q limit)

/-! ## The schema slicers (select_relevant in nl2sql.py,
select_relevant_mongo in nl2mongo.py)

rapidfuzz is an external library, so the fuzzy scorer is a parameter
(a function from candidate string and question to an exact rational,
standing in for fuzz.partial_ratio).  Python list.sort with a key and
reverse=True is a stable descending sort, modeled by insertion sort with
the relation that puts a before b exactly when the score of a is at least
the score of b. -/

/-- One column/field descriptor of the loaded schema. -/
structure Column where
  name : String
  ctype : String
  nullable : Bool

/-- Python max(iterable, default=0). -/
def pyMaxD (l : List ℚ) (dflt : ℚ) : ℚ :=
  match l with
  | [] => dflt
  | x :: xs => xs.foldl max x

/-- Stable descending sort by score, as list.sort(key=second, reverse=True). -/
def sortByScoreDesc (l : List (String × ℚ)) : List (String × ℚ) :=
  List.insertionSort (fun a b : String × ℚ => b.2 ≤ a.2) l

/-- The fallback append loop of select_relevant: each fallback name present
among the columns but not among the kept ones is appended at the end. -/
def appendFallbacks (cols : List String) (best : List String) :
    List String → List String
  | [] => best
  | f :: fs =>
    appendFallbacks cols
      (if cols.contains f && !(best.contains f) then best ++ [f] else best) fs

/-- Column names of one table of the schema (dict lookup schema[t]). -/
def schemaColsOf (schema : List (String × List Column)) (t : String) : List String :=
  (((schema.find? (fun p => p.1 == t)).map Prod.snd).getD []).map Column.name

/-- select_relevant (nl2sql.py): score every table by the best partial-match
of its name or any column name against the question, keep the top k_tables,
then per kept table keep the 8 best-scoring columns plus the fallbacks id
and table_id when present. -/
def select_relevant (score : String → String → ℚ)
    (schema : List (String × List Column)) (question : String) (k_tables : Nat) :
    List (String × List String) :=
  let table_scores := schema.map (fun p =>
    (p.1, max (score p.1 question)
              (pyMaxD (p.2.map (fun c => score c.name question)) 0)))
  let chosen := ((sortByScoreDesc table_scores).take k_tables).map Prod.fst
  chosen.map (fun t =>
    let cols := schemaColsOf schema t
    let col_scores := cols.map (fun c => (c, score c question))
    let best := ((sortByScoreDesc col_scores).take 8).map Prod.fst
    (t, appendFallbacks cols best ["id", t ++ "_id"]))

/-- select_relevant_mongo (nl2mongo.py): identical shape, but the only
fallback appended is the _id field. -/
def select_relevant_mongo (score : String → String → ℚ)
    (schema : List (String × List Column)) (question : String) (k_collections : Nat) :
    List (String × List String) :=
  let collection_scores := schema.map (fun p =>
    (p.1, max (score p.1 question)
              (pyMaxD (p.2.map (fun f => score f.name question)) 0)))
  let chosen := ((sortByScoreDesc collection_scores).take k_collections).map Prod.fst
  chosen.map (fun c =>
    let fields := schemaColsOf schema c
    let field_scores := fields.map (fun f => (f, score f question))
    let best := ((sortByScoreDesc field_scores).take 8).map Prod.fst
    (c, appendFallbacks fields best ["_id"]))

/-! ## The SQL response extractor (_extract_sql_from_response in nl2sql.py) -/

/-- The fixed token set the prose heuristic scans for. -/
def sqlKeywordTokens : List String :=
  ["SELECT", "FROM", "WHERE", "JOIN", "GROUP", "ORDER", "LIMIT", "HAVING",
   "UNION", "WITH", "AS", "ON", "AND", "OR", "IN", "EXISTS", "CASE", "WHEN",
   "THEN", "ELSE", "END", "(", ")", ",", "=", "<", ">", "!=", "<=", ">=",
   "IS", "NULL", "NOT", "LIKE", "ILIKE", "AVG", "COUNT", "SUM", "MAX", "MIN",
   "OVER", "PARTITION", "BY", "DISTINCT"]

/-- The double-quote character. -/
def dquoteChar : Char := Char.ofNat 34

/-- The single-quote character. -/
def squoteChar : Char := Char.ofNat 39

/-- True when the stripped line has an uppercase first character. -/
def firstCharUpper (s : String) : Bool :=
  match s.data with
  | [] => false
  | c :: _ => c.isUpper

/-- The prose test of the extractor loop: a nonempty line containing none of
the recognized SQL tokens, starting with a capital letter and not a SQL
comment. -/
def looksLikeProse (ls : String) : Bool :=
  !(ls = "") &&
  !(sqlKeywordTokens.any (fun kw => pyIn kw (pyUpper ls))) &&
  firstCharUpper ls &&
  !(pyStartsWith ls "--")

/-- The line-collection loop of _extract_sql_from_response: start collecting
at a line whose stripped uppercase form starts with SELECT; afterwards stop
before a quote-free prose line, and stop after a line ending in a
semicolon. -/
def collectSqlLines : List String → Bool → List String
  | [], _ => []
  | line :: rest, in_sql =>
    let ls := pyStrip line
    if pyStartsWith (pyUpper ls) "SELECT" then
      ls :: collectSqlLines rest true
    else if in_sql then
      if looksLikeProse ls && !(pyCharIn dquoteChar ls) && !(pyCharIn squoteChar ls) then
        []
      else
        ls :: (if pyEndsWith ls ";" then [] else collectSqlLines rest true)
    else
      collectSqlLines rest in_sql

/-- Markdown fence removal: drop the first line, and drop the last line when
its stripped form is a bare closing fence. -/
def stripCodeFence (response : String) : String :=
  let lines := pySplitNL response
  let lines := if lines.length > 1 then lines.tail else lines
  let lines :=
    match lines.getLast? with
    | some last => if pyStrip last = "```" then lines.dropLast else lines
    | none => lines
  String.intercalate "\n" lines

/-- _extract_sql_from_response (nl2sql.py): strip, remove one fenced code
block, collect the SQL lines, join them with single spaces and strip the
trailing semicolons; with no SELECT line found, fall back to the stripped
text. -/
def _extract_sql_from_response (response : String) : String :=
  let response := pyStrip response
  let response :=
    if pyStartsWith response "```" then stripCodeFence response else response
  let lines := pySplitNL response
  let sql_lines := collectSqlLines lines false
  match sql_lines with
  | [] => pyStrip response
  | _ => pyStrip (pyRstripSemi (pyStrip (String.intercalate " " sql_lines)))

/-! ## The intent analyzer (query_intent.py)

Every detector is a keyword or small-regex scan over the lowercased
question.  The few regular expressions the file uses are simple enough to
embed directly as scanners with Python re word-boundary semantics (a word
character is alphanumeric or underscore; the dot of the union pattern does
not cross newlines). -/

/-- Word characters of Python re (ASCII model). -/
def isWordChar (c : Char) : Bool := c.isAlphanum || c = '_'

/-- Python re word boundary between two neighboring characters (absent
neighbor at the edge of the text). -/
def boundaryBetween : Option Char → Option Char → Bool
  | none, none => false
  | none, some c => isWordChar c
  | some c, none => isWordChar c
  | some a, some b => (isWordChar a) != (isWordChar b)

/-- First word-bounded occurrence of the needle; returns the character just
before the remainder together with the remainder of the text after the
match. -/
def findBoundedAux (needle : List Char) (prev : Option Char) :
    List Char → Option (Option Char × List Char)
  | [] => none
  | c :: cs =>
    if needle.isPrefixOf (c :: cs)
        && boundaryBetween prev (some c)
        && boundaryBetween needle.getLast? (((c :: cs).drop needle.length).head?) then
      some (needle.getLast?, (c :: cs).drop needle.length)
    else
      findBoundedAux needle (some c) cs

/-- re.search of a single word-bounded word. -/
def reWordBounded (q word : String) : Bool :=
  (findBoundedAux word.data none q.data).isSome

/-- One or more whitespace characters followed by a digit (the tail of the
pattern top-or-first-or-last then spaces then digits). -/
def spacesThenDigitMore : List Char → Bool
  | [] => false
  | c :: cs => if isPySpace c then spacesThenDigitMore cs else c.isDigit

/-- At least one whitespace character, then a digit. -/
def spacesThenDigit : List Char → Bool
  | [] => false
  | c :: cs => if isPySpace c then spacesThenDigitMore cs else false

/-- re.search of the limit pattern: word-bounded top, first or last,
whitespace, then a number. -/
def topFirstLastNumAux (prev : Option Char) : List Char → Bool
  | [] => false
  | c :: cs =>
    (["top".data, "first".data, "last".data].any (fun w =>
        w.isPrefixOf (c :: cs) && boundaryBetween prev (some c)
          && spacesThenDigit ((c :: cs).drop w.length)))
    || topFirstLastNumAux (some c) cs

/-- The numeric limit regex of the LIMITED detector. -/
def topFirstLastNum (q : String) : Bool := topFirstLastNumAux none q.data

/-- Exactly n digits, returning the remainder. -/
def nDigits : Nat → List Char → Option (List Char)
  | 0, l => some l
  | _ + 1, [] => none
  | n + 1, c :: cs => if c.isDigit then nDigits n cs else none

/-- The date literal pattern at one position: 4 digits dash 2 digits dash
2 digits, or 2 digits slash 2 digits slash 4 digits. -/
def dateAt (l : List Char) : Bool :=
  (match nDigits 4 l with
   | some ('-' :: r1) =>
     (match nDigits 2 r1 with
      | some ('-' :: r2) => (nDigits 2 r2).isSome
      | _ => false)
   | _ => false)
  ||
  (match nDigits 2 l with
   | some ('/' :: r1) =>
     (match nDigits 2 r1 with
      | some ('/' :: r2) => (nDigits 4 r2).isSome
      | _ => false)
   | _ => false)

/-- re.search of the date literal pattern anywhere in the text. -/
def dateSearch : List Char → Bool
  | [] => false
  | c :: cs => dateAt (c :: cs) || dateSearch cs

/-- re.search of table1 then word-bounded or then table2 (IGNORECASE, and
the dot does not cross newlines). -/
def unionPairMatch (qL : String) (t1 t2 : String) : Bool :=
  (pySplitNL qL).any (fun line =>
    match findBoundedAux (pyLower t1).data none line.data with
    | none => false
    | some (p1, r1) =>
      match findBoundedAux ['o', 'r'] p1 r1 with
      | none => false
      | some (p2, r2) => (findBoundedAux (pyLower t2).data p2 r2).isSome)

/-- The nested UNION loop: one firing per earlier table name that pairs with
some later table name (the break leaves only the inner loop). -/
def unionAppendCount (qL : String) : List String → Nat
  | [] => 0
  | t :: rest =>
    (if rest.any (fun t2 => unionPairMatch qL t t2) then 1 else 0)
      + unionAppendCount qL rest

/-- The QueryIntent enum of query_intent.py. -/
inductive QueryIntent where
  | simpleSelect
  | filtered
  | aggregation
  | groupedAggregation
  | windowFunction
  | join
  | sorted
  | limited
  | complexFilter
  | dateTime
  | textSearch
  | comparison
  | ranking
  | distinct
  | nullHandling
  | conditional
  | union
  | subquery
deriving DecidableEq

/-- The per-family aggregation keyword table, in dict insertion order. -/
def aggregation_keyword_families : List (String × List String) :=
  [("avg", ["average", "avg", "mean", "mean age", "mean price"]),
   ("count", ["count", "how many", "number of", "total number", "quantity"]),
   ("sum", ["sum", "total", "total amount", "total price", "total sales"]),
   ("max", ["max", "maximum", "highest", "largest", "most", "top"]),
   ("min", ["min", "minimum", "lowest", "smallest", "least", "bottom"])]

/-- GROUP BY detector keywords. -/
def group_keywords : List String :=
  ["grouped by", "group by", "per", "for each", "by company", "by category",
   "by month", "by year", "by department", "by type", "by status"]

/-- Window-function detector keywords. -/
def window_keywords : List String :=
  ["along with", "with their", "with the average", "with the total",
   "compared to", "compared with", "same as the average",
   "alongside", "including the", "plus the average"]

/-- WHERE/filter detector keywords. -/
def filter_keywords : List String :=
  ["where", "with", "that have", "that are", "which", "whose",
   "greater than", "less than", "equal to", "not equal",
   "above", "below", "over", "under", "between", "in range"]

/-- Compound-filter indicator keywords. -/
def complex_filter_indicators : List String :=
  ["and", "or", "both", "either", "neither", "not only", "but also",
   "as well as", "in addition to"]

/-- ORDER BY detector keywords. -/
def sort_keywords : List String :=
  ["sorted by", "ordered by", "order by", "sort by",
   "ascending", "descending", "asc", "desc",
   "newest", "oldest", "latest", "earliest", "first", "last",
   "top", "bottom", "highest", "lowest"]

/-- LIMIT detector keywords. -/
def limit_keywords : List String :=
  ["first", "last", "top", "bottom", "limit", "only",
   "first 10", "top 5", "last 20", "first few", "only show"]

/-- Date/time detector keywords. -/
def date_keywords : List String :=
  ["today", "yesterday", "tomorrow", "this week", "this month", "this year",
   "last week", "last month", "last year", "next week", "next month",
   "recent", "recently", "latest", "oldest", "date", "time", "when",
   "from", "to", "between", "after", "before", "since", "until"]

/-- Text-search detector keywords. -/
def text_search_keywords : List String :=
  ["containing", "contains", "like", "matching", "starts with", "ends with",
   "includes", "including", "search", "find", "look for"]

/-- Comparison detector keywords. -/
def comparison_keywords : List String :=
  ["compare", "comparison", "versus", "vs", "difference", "different",
   "same", "similar", "equal", "greater than", "less than"]

/-- Ranking detector keywords. -/
def ranking_keywords : List String :=
  ["rank", "ranking", "ranked", "position", "nth", "first place",
   "second place", "top performer", "best", "worst"]

/-- DISTINCT detector keywords. -/
def distinct_keywords : List String :=
  ["unique", "distinct", "different", "unique values", "no duplicates",
   "only show unique", "list all unique"]

/-- NULL-handling detector keywords. -/
def null_keywords : List String :=
  ["null", "empty", "missing", "not set", "no value", "blank",
   "is null", "is not null", "has no", "without"]

/-- Subquery indicator keywords. -/
def subquery_indicators : List String :=
  ["that have", "which have", "whose", "where there exists",
   "that are in", "that are not in", "in the list of"]

/-- The detector phase of analyze_query_intent: the intents list exactly as
the Python code appends to it, in program order.  The optional
schema_context is a dict, whose Python truthiness distinguishes a missing
context from an empty one. -/
def detectIntents (question : String)
    (schema_context : Option (List (String × List String))) : List QueryIntent :=
  let qL := pyLower question
  let detected_agg :=
    aggregation_keyword_families.find? (fun fam => fam.2.any (fun kw => pyIn kw qL))
  let i1 : List QueryIntent := if detected_agg.isSome then [.aggregation] else []
  let needs_group_by := group_keywords.any (fun kw => pyIn kw qL)
  let i2 : List QueryIntent := if needs_group_by then [.groupedAggregation] else []
  let needs_window := window_keywords.any (fun kw => pyIn kw qL)
  let i3 : List QueryIntent :=
    if needs_window && detected_agg.isSome then [.windowFunction] else []
  let ctxTruthy := match schema_context with | some l => !(l.isEmpty) | none => false
  let joinElif :=
    ["and their", "with their", "together"].any (fun kw => pyIn kw qL)
  let i4 : List QueryIntent :=
    if ctxTruthy then
      (if ((schema_context.getD []).map Prod.fst).countP
            (fun t => pyIn (pyLower t) qL) ≥ 2 then [.join] else [])
    else
      (if joinElif then [.join] else [])
  let has_filters :=
    filter_keywords.any (fun kw => pyIn kw qL)
      || ["greater", "less", "equal", "not"].any (fun w => reWordBounded qL w)
  let i5 : List QueryIntent := if has_filters then [.filtered] else []
  let i6 : List QueryIntent :=
    if has_filters
        && (complex_filter_indicators.countP (fun kw => pyIn kw qL) ≥ 2) then
      [.complexFilter]
    else []
  let i7 : List QueryIntent :=
    if sort_keywords.any (fun kw => pyIn kw qL) then [.sorted] else []
  let i8 : List QueryIntent :=
    if limit_keywords.any (fun kw => pyIn kw qL) || topFirstLastNum qL then
      [.limited]
    else []
  let i9 : List QueryIntent :=
    if date_keywords.any (fun kw => pyIn kw qL) || dateSearch qL.data then
      [.dateTime]
    else []
  let i10 : List QueryIntent :=
    if text_search_keywords.any (fun kw => pyIn kw qL) then [.textSearch] else []
  let i11 : List QueryIntent :=
    if comparison_keywords.any (fun kw => pyIn kw qL) then [.comparison] else []
  let i12 : List QueryIntent :=
    if ranking_keywords.any (fun kw => pyIn kw qL) then [.ranking] else []
  let i13 : List QueryIntent :=
    if distinct_keywords.any (fun kw => pyIn kw qL) then [.distinct] else []
  let i14 : List QueryIntent :=
    if null_keywords.any (fun kw => pyIn kw qL) then [.nullHandling] else []
  let i15 : List QueryIntent :=
    if pyIn "or" qL && ctxTruthy then
      List.replicate
        (unionAppendCount qL ((schema_context.getD []).map Prod.fst)) .union
    else []
  let i16 : List QueryIntent :=
    if subquery_indicators.any (fun kw => pyIn kw qL) && has_filters then
      [.subquery]
    else []
  i1 ++ i2 ++ i3 ++ i4 ++ i5 ++ i6 ++ i7 ++ i8
    ++ i9 ++ i10 ++ i11 ++ i12 ++ i13 ++ i14 ++ i15 ++ i16

/-- The fixed priority order of the primary-intent selection. -/
def priority_order : List QueryIntent :=
  [.windowFunction, .groupedAggregation, .aggregation, .join, .ranking,
   .complexFilter, .filtered, .sorted, .limited]

/-- The intent/confidence pair analyze_query_intent returns (the clause,
function, hint and example fields do not feed back into either). -/
structure QueryIntentAnalysis where
  intent : QueryIntent
  confidence : ℚ
deriving DecidableEq

/-- analyze_query_intent (query_intent.py): with no fired detector the
result is SIMPLE_SELECT at confidence 0.8; otherwise the first priority
intent present among the fired ones (falling back to the first fired one),
at confidence min(0.95, 0.7 + 0.05 times the length of the fired list). -/
def analyze_query_intent (question : String)
    (schema_context : Option (List (String × List String))) : QueryIntentAnalysis :=
  match detectIntents question schema_context with
  | [] => ⟨.simpleSelect, 8/10⟩
  | first :: rest =>
    let intents := first :: rest
    let primary := (priority_order.find? (fun p => intents.contains p)).getD first
    ⟨primary, min (95/100) (7/10 + (intents.length : ℚ) * (5/100))⟩

/-! ## Theorems -/

/-- Membership in referenced_tables is membership of a nonempty table name
in the tree traversal. -/
theorem mem_referenced_tables (e : SqlNode) (t : String) :
    t ∈ referenced_tables e ↔ t ∈ collectTables e ∧ t ≠ "" := by
  unfold referenced_tables
  rw [(List.perm_insertionSort _ _).mem_iff, List.mem_dedup, List.mem_filter]
  simp

/-- Boolean list containment on strings agrees with membership. -/
theorem contains_string_iff {l : List String} {a : String} :
    l.contains a = true ↔ a ∈ l := by
  simp [List.contains_iff_exists_mem_beq]

/-- C1: ensure_tables_allowed raises SQLSafetyError exactly when some table
name referenced anywhere in the parsed expression is not a key of the
schema slice, so a query that passes references only tables offered in the
slice. -/
theorem ensure_tables_allowed_iff_outside_slice
    (e : SqlNode) (allowed : List (String × List String)) :
    exceptIsOk (ensure_tables_allowed e allowed) = false ↔
      ∃ t, t ∈ collectTables e ∧ t ≠ "" ∧ t ∉ allowed.map Prod.fst := by
  rcases hf : (referenced_tables e).find?
      (fun t => !((allowed.map Prod.fst).contains t)) with _ | t
  · have hres : ensure_tables_allowed e allowed = .ok () := by
      unfold ensure_tables_allowed
      simp only [hf]
    rw [hres]
    simp only [exceptIsOk]
    constructor
    · intro h; cases h
    · rintro ⟨u, hu, hne, hnm⟩
      rw [List.find?_eq_none] at hf
      have hpred : (allowed.map Prod.fst).contains u = true := by
        simpa using hf u ((mem_referenced_tables e u).2 ⟨hu, hne⟩)
      exact absurd (contains_string_iff.1 hpred) hnm
  · have hres : ensure_tables_allowed e allowed
        = .error ⟨"Table not allowed in context: " ++ t⟩ := by
      unfold ensure_tables_allowed
      simp only [hf]
    have hp := List.find?_some hf
    have hm := (mem_referenced_tables e t).1 (List.mem_of_find?_eq_some hf)
    rw [hres]
    simp only [exceptIsOk]
    constructor
    · intro _
      have hcf : (allowed.map Prod.fst).contains t = false := by simpa using hp
      refine ⟨t, hm.1, hm.2, fun hmem => ?_⟩
      rw [contains_string_iff.2 hmem] at hcf
      cases hcf
    · intro _; trivial

/-- C2: the safety validator rejects parse failures and every blocked
statement kind (INSERT, UPDATE, DELETE, CREATE, DROP, ALTER, TRUNCATE,
MERGE), accepts exactly the Select, Subquery, Union and With shapes, and a
rejected statement never reaches the execute step of the route. -/
theorem ensure_select_only_blocks_writes
    (pr : Except String SqlNode) (allowed : List (String × List String))
    (limit : Nat) (planFetch : Except String (List String)) :
    (∀ m, pr = .error m → exceptIsOk (ensure_select_only pr) = false)
    ∧ (∀ p, pr = .ok p → BLOCK_KINDS.contains (className p) = true →
        exceptIsOk (ensure_select_only pr) = false)
    ∧ (∀ p, pr = .ok p → (ensure_select_only pr = .ok p ↔ isSelectDerived p = true))
    ∧ (exceptIsOk (ensure_select_only pr) = false →
        ai_ask_sql pr allowed limit planFetch = [.validateStep, .rejectStep]
        ∧ PipelineEvent.executeStep ∉ ai_ask_sql pr allowed limit planFetch) := by
  refine ⟨?_, ?_, ?_, ?_⟩
  · intro m hm; subst hm; rfl
  · intro p hp hblock; subst hp
    cases p <;> simp_all [ensure_select_only, exceptIsOk, BLOCK_KINDS, className]
  · intro p hp; subst hp
    cases p <;> simp [ensure_select_only, exceptIsOk, BLOCK_KINDS, className, isSelectDerived]
  · intro h
    unfold ai_ask_sql
    cases hs : ensure_select_only pr with
    | error e => simp
    | ok v => rw [hs] at h; cases h

/-- C2 witness: a parsed INSERT statement is rejected and its trace stops at
the validation step. -/
theorem ensure_select_only_blocks_writes_witness :
    exceptIsOk (ensure_select_only (.ok SqlNode.insert)) = false
    ∧ ai_ask_sql (.ok SqlNode.insert) [] 100 (.ok []) = [.validateStep, .rejectStep] := by
  have h := ensure_select_only_blocks_writes (.ok SqlNode.insert) [] 100 (.ok [])
  have h2 := h.2.1 SqlNode.insert rfl (by decide)
  exact ⟨h2, (h.2.2.2 h2).1⟩

/-- C3 (amended): enforce_limit appends exactly one LIMIT clause equal to
the caller cap to a top-level SELECT (possibly wrapped in one Subquery)
that carries no LIMIT anywhere, leaves top-level Union and With statements
unchanged, and never alters an existing explicit LIMIT. -/
theorem enforce_limit_spec :
    (∀ (children : List SqlNode) (cap : Nat), countLimitsList children = 0 →
        countLimits (enforce_limit (.select children none) cap) = 1
        ∧ topLevelLimit (enforce_limit (.select children none) cap) = some cap)
    ∧ (∀ (children : List SqlNode) (cap : Nat), countLimitsList children = 0 →
        countLimits (enforce_limit (.subquery (.select children none)) cap) = 1
        ∧ topLevelLimit (enforce_limit (.subquery (.select children none)) cap) = some cap)
    ∧ (∀ (a b : SqlNode) (cap : Nat), enforce_limit (.union a b) cap = .union a b)
    ∧ (∀ (e : SqlNode) (cap : Nat), enforce_limit (.withCte e) cap = .withCte e)
    ∧ (∀ (children : List SqlNode) (k cap : Nat),
        enforce_limit (.select children (some k)) cap = .select children (some k))
    ∧ (∀ (children : List SqlNode) (k cap : Nat),
        enforce_limit (.subquery (.select children (some k))) cap
          = .subquery (.select children (some k))) := by
  refine ⟨?_, ?_, ?_, ?_, ?_, ?_⟩
  · intro children cap h
    constructor
    · show (1 + countLimitsList children) = 1
      rw [h]
    · rfl
  · intro children cap h
    constructor
    · show (1 + countLimitsList children) = 1
      rw [h]
    · rfl
  · intro a b cap; rfl
  · intro e cap; rfl
  · intro children k cap; rfl
  · intro children k cap; rfl

/-- C3 witness: a bare SELECT with no LIMIT gets exactly one LIMIT clause
equal to the cap. -/
theorem enforce_limit_spec_witness :
    countLimits (enforce_limit (.select [] none) 100) = 1
    ∧ topLevelLimit (enforce_limit (.select [] none) 100) = some 100 :=
  enforce_limit_spec.1 [] 100 rfl

/-- C3 counterexample: a top-level UNION of two SELECTs with no explicit
LIMIT is returned unchanged, with zero LIMIT clauses rather than exactly
one. -/
theorem enforce_limit_union_counterexample :
    countLimits (SqlNode.union (.select [] none) (.select [] none)) = 0
    ∧ enforce_limit (SqlNode.union (.select [] none) (.select [] none)) 100
        = SqlNode.union (.select [] none) (.select [] none)
    ∧ countLimits
        (enforce_limit (SqlNode.union (.select [] none) (.select [] none)) 100) ≠ 1 := by
  refine ⟨rfl, rfl, ?_⟩
  intro h
  simp [enforce_limit, countLimits, countLimitsList] at h

/-- C4 counterexample: with a slice offering only the collection orders, a
generated query naming the collection users passes every pre-execution
check of the document-store path and proceeds to execution. -/
theorem handle_mongodb_gate_counterexample :
    exceptIsOk (handle_mongodb_gate [("orders", ["_id", "total"])]
        ⟨some "users", some [.dictStage ["$match"]], none, none⟩ 100) = true
    ∧ "users" ∉ (([("orders", ["_id", "total"])] : List (String × List String)).map Prod.fst) := by
  exact ⟨rfl, by decide⟩

/-- C4 (amended): the document-store path enforces no collection allow-list:
the pre-execution gate ignores the slice entirely, and it accepts exactly
the query objects carrying a nonempty collection name and a pipeline or
find entry, whatever collection they name. -/
theorem handle_mongodb_gate_spec
    (allowed allowed2 : List (String × List String)) (q : MongoQuery) (limit : Nat) :
    handle_mongodb_gate allowed q limit = handle_mongodb_gate allowed2 q limit
    ∧ (exceptIsOk (handle_mongodb_gate allowed q limit) = true ↔
        (∃ c, q.collection = some c ∧ c ≠ "")
        ∧ (q.pipeline.isSome ∨ q.findQ.isSome)) := by
  constructor
  · rfl
  · unfold handle_mongodb_gate execute_mongodb_query_checks handle_mongodb_limit
    rcases q with ⟨c, p, f, l⟩
    rcases c with _ | c
    · simp [exceptIsOk]
    · by_cases hc : c = "" <;> rcases p with _ | p <;> rcases f with _ | f <;>
        simp [exceptIsOk, hc]

/-- C5: for a query that passed validation, the route fetches the EXPLAIN
plan first and, when the first rows= token of the plan text exceeds 100000,
rejects with the capacity error before the execute step is ever reached. -/
theorem capacity_gate_rejects_before_execute
    (pr : Except String SqlNode) (e : SqlNode)
    (allowed : List (String × List String)) (limit : Nat)
    (planLines : List String) (n : Nat)
    (hok : ensure_select_only pr = .ok e)
    (hta : ensure_tables_allowed e allowed = .ok ())
    (hrows : firstRowsToken (String.intercalate "\n" planLines) = some n)
    (hbig : n > 100000) :
    ai_ask_sql pr allowed limit (.ok planLines)
      = [.validateStep, .explainStep, .rejectStep]
    ∧ PipelineEvent.executeStep ∉ ai_ask_sql pr allowed limit (.ok planLines) := by
  have htrace : ai_ask_sql pr allowed limit (.ok planLines)
      = [.validateStep, .explainStep, .rejectStep] := by
    unfold ai_ask_sql
    simp only [hok, hta]
    have hplan : (if explain (Except.ok planLines) = "" then ""
        else explain (Except.ok planLines)) = explain (Except.ok planLines) := by
      split
      · next h => exact h.symm
      · rfl
    rw [hplan]
    have hrows2 : firstRowsToken (explain (Except.ok planLines)) = some n := hrows
    rw [hrows2]
    simp [hbig]
  refine ⟨htrace, ?_⟩
  rw [htrace]
  decide

/-- C5 witness: a plan reporting rows=250000 for an allow-listed SELECT is
rejected at the explain step; no execute step appears in the trace. -/
theorem capacity_gate_rejects_before_execute_witness :
    ai_ask_sql (.ok (.select [.table (some "users")] none)) [("users", ["id"])] 100
        (.ok ["Seq Scan on users  (cost=0.00..18584.82 rows=250000 width=244)"])
      = [.validateStep, .explainStep, .rejectStep]
    ∧ PipelineEvent.executeStep ∉
        ai_ask_sql (.ok (.select [.table (some "users")] none)) [("users", ["id"])] 100
          (.ok ["Seq Scan on users  (cost=0.00..18584.82 rows=250000 width=244)"]) :=
  capacity_gate_rejects_before_execute
    (.ok (.select [.table (some "users")] none)) (.select [.table (some "users")] none)
    [("users", ["id"])] 100
    ["Seq Scan on users  (cost=0.00..18584.82 rows=250000 width=244)"] 250000
    rfl rfl rfl (by decide)

/-- C6 (amended): chat_complete raises LLMNotConfigured when the endpoint
configuration (base URL or model name) is missing, and it also re-raises
every caught httpx failure (timeout, connect error, HTTP error status, read
timeout) against a configured endpoint as LLMNotConfigured; llm.py defines
no distinct upstream-unavailable failure type.  Only a successful response
returns the stripped assistant text. -/
theorem chat_complete_spec (s : LLMSettings) (outcome : HttpOutcome) :
    ((optFalsy s.LLM_BASE_URL || optFalsy s.LLM_MODEL) = true →
      chat_complete s outcome
        = .error (.llmNotConfigured
            "LLM not configured. Set LLM_BASE_URL and LLM_MODEL in .env"))
    ∧ ((optFalsy s.LLM_BASE_URL || optFalsy s.LLM_MODEL) = false →
        (∀ body, outcome = .success body → chat_complete s outcome = .ok (pyStrip body))
        ∧ (isHttpFailure outcome = true →
            isNotConfiguredErr (chat_complete s outcome) = true)) := by
  constructor
  · intro h
    unfold chat_complete client_config_check
    simp [h]
  · intro h
    constructor
    · intro body hb
      subst hb
      unfold chat_complete client_config_check
      simp [h]
    · intro hf
      cases outcome with
      | success body => simp [isHttpFailure] at hf
      | timeoutExc =>
        unfold chat_complete client_config_check isNotConfiguredErr; simp [h]
      | connectExc =>
        unfold chat_complete client_config_check isNotConfiguredErr; simp [h]
      | statusExc code text =>
        unfold chat_complete client_config_check isNotConfiguredErr; simp [h]
      | readTimeoutExc =>
        unfold chat_complete client_config_check isNotConfiguredErr; simp [h]

/-- C6 witness: with a configured endpoint, a timeout still surfaces as the
LLMNotConfigured exception class. -/
theorem chat_complete_spec_witness :
    isNotConfiguredErr (chat_complete
      ⟨some "http://localhost:11434/v1", some "qwen2.5-coder", none⟩ .timeoutExc) = true :=
  ((chat_complete_spec ⟨some "http://localhost:11434/v1", some "qwen2.5-coder", none⟩
      .timeoutExc).2 (by decide)).2 (by decide)

/-- C6 counterexample: against a fully configured endpoint, a connect
failure is raised as LLMNotConfigured, contradicting the claim that it
never surfaces as the not-configured failure. -/
theorem chat_complete_connect_counterexample :
    chat_complete ⟨some "http://localhost:11434/v1", some "qwen2.5-coder", none⟩ .connectExc
      = .error (.llmNotConfigured
          ("Could not connect to LLM service at http://localhost:11434/v1. Please ensure the LLM service is running and LLM_BASE_URL is correct in your .env file.")) := rfl

/-- C10: when the EXPLAIN round-trip fails, explain swallows the exception
and returns the empty string, the rows= search then finds nothing, and a
validated query proceeds to the execute step with no capacity rejection. -/
theorem failed_explain_never_blocks
    (pr : Except String SqlNode) (e : SqlNode)
    (allowed : List (String × List String)) (limit : Nat) (err : String)
    (hok : ensure_select_only pr = .ok e)
    (hta : ensure_tables_allowed e allowed = .ok ()) :
    explain (.error err) = ""
    ∧ firstRowsToken "" = none
    ∧ ai_ask_sql pr allowed limit (.error err)
        = [.validateStep, .explainStep, .executeStep]
    ∧ PipelineEvent.rejectStep ∉ ai_ask_sql pr allowed limit (.error err) := by
  have htrace : ai_ask_sql pr allowed limit (.error err)
      = [.validateStep, .explainStep, .executeStep] := by
    unfold ai_ask_sql
    simp only [hok, hta]
    rfl
  refine ⟨rfl, rfl, htrace, ?_⟩
  rw [htrace]
  decide

/-- C10 witness: a failed EXPLAIN on an allow-listed SELECT still executes. -/
theorem failed_explain_never_blocks_witness :
    ai_ask_sql (.ok (.select [.table (some "users")] none)) [("users", ["id"])] 100
        (.error "connection refused")
      = [.validateStep, .explainStep, .executeStep] :=
  (failed_explain_never_blocks
    (.ok (.select [.table (some "users")] none)) (.select [.table (some "users")] none)
    [("users", ["id"])] 100 "connection refused" rfl rfl).2.2.1

/-- The head surviving a dropWhile fails the predicate. -/
theorem not_head_dropWhile (p : Char → Bool) :
    ∀ (l : List Char) (c : Char) (cs : List Char),
      l.dropWhile p = c :: cs → p c = false := by
  intro l
  induction l with
  | nil => intro c cs h; cases h
  | cons a t ih =>
    intro c cs h
    by_cases hp : p a
    · rw [List.dropWhile_cons_of_pos hp] at h
      exact ih c cs h
    · rw [List.dropWhile_cons_of_neg hp] at h
      cases h
      exact Bool.eq_false_iff.mpr hp

/-- Dropping twice drops once. -/
theorem dropWhile_dropWhile (p : Char → Bool) (l : List Char) :
    (l.dropWhile p).dropWhile p = l.dropWhile p := by
  cases h : l.dropWhile p with
  | nil => rfl
  | cons c cs =>
    have hc := not_head_dropWhile p l c cs h
    simp [List.dropWhile_cons, hc]

/-- Stripping is idempotent. -/
theorem stripChars_idem (l : List Char) : stripChars (stripChars l) = stripChars l := by
  unfold stripChars
  set A := l.dropWhile isPySpace with hA
  set B := A.reverse.dropWhile isPySpace with hB
  have h1 : B.reverse.dropWhile isPySpace = B.reverse := by
    cases hBr : B.reverse with
    | nil => rfl
    | cons c bs =>
      have h2 : A.reverse.takeWhile isPySpace ++ B = A.reverse :=
        List.takeWhile_append_dropWhile isPySpace A.reverse
      have hAeq : A = c :: (bs ++ (A.reverse.takeWhile isPySpace).reverse) := by
        calc A = A.reverse.reverse := (List.reverse_reverse A).symm
        _ = (A.reverse.takeWhile isPySpace ++ B).reverse := by rw [h2]
        _ = B.reverse ++ (A.reverse.takeWhile isPySpace).reverse := by
              rw [List.reverse_append]
        _ = c :: (bs ++ (A.reverse.takeWhile isPySpace).reverse) := by
              rw [hBr]; rfl
      have hc : isPySpace c = false :=
        not_head_dropWhile isPySpace l c _ (by rw [← hA]; exact hAeq)
      simp [List.dropWhile_cons, hc]
  rw [h1, List.reverse_reverse]
  have h3 : B.dropWhile isPySpace = B := by
    rw [hB, dropWhile_dropWhile]
  rw [h3]

/-- Python str.strip() is idempotent. -/
theorem pyStrip_idem (s : String) : pyStrip (pyStrip s) = pyStrip s :=
  congrArg String.mk (stripChars_idem s.data)

/-- A stripped line whose uppercase form starts with SELECT. -/
def isSelectLine (line : String) : Bool :=
  pyStartsWith (pyUpper (pyStrip line)) "SELECT"

/-- The collection loop yields nothing exactly when no line starts with
SELECT. -/
theorem collectSqlLines_nil_iff (lines : List String) :
    collectSqlLines lines false = [] ↔
      ∀ line ∈ lines, isSelectLine line = false := by
  induction lines with
  | nil => simp [collectSqlLines]
  | cons a t ih =>
    by_cases h : pyStartsWith (pyUpper (pyStrip a)) "SELECT"
    · constructor
      · intro hcol
        exfalso
        unfold collectSqlLines at hcol
        rw [if_pos h] at hcol
        cases hcol
      · intro hall
        exact absurd h (by simpa [isSelectLine] using hall a (List.mem_cons_self a t))
    · have hstep : collectSqlLines (a :: t) false = collectSqlLines t false := by
        show (if pyStartsWith (pyUpper (pyStrip a)) "SELECT" = true
              then pyStrip a :: collectSqlLines t true
              else collectSqlLines t false) = collectSqlLines t false
        rw [if_neg h]
      rw [hstep, ih]
      constructor
      · intro hall line hline
        rcases List.mem_cons.1 hline with rfl | hline
        · simpa [isSelectLine] using h
        · exact hall line hline
      · intro hall line hline
        exact hall line (List.mem_cons_of_mem a hline)

/-- The fence-stripped text the extractor works on. -/
def defencedText (r : String) : String :=
  if pyStartsWith (pyStrip r) "```" then stripCodeFence (pyStrip r) else pyStrip r

/-- With no SELECT line anywhere, the extractor returns the stripped
fence-stripped text. -/
theorem extract_sql_no_select (r : String)
    (h : ∀ line ∈ pySplitNL (defencedText r), isSelectLine line = false) :
    _extract_sql_from_response r = pyStrip (defencedText r) := by
  have hnil : collectSqlLines (pySplitNL (defencedText r)) false = [] :=
    (collectSqlLines_nil_iff _).2 h
  show (match collectSqlLines (pySplitNL (defencedText r)) false with
        | [] => pyStrip (defencedText r)
        | _ => pyStrip (pyRstripSemi (pyStrip (String.intercalate " "
                 (collectSqlLines (pySplitNL (defencedText r)) false)))))
      = pyStrip (defencedText r)
  rw [hnil]

/-- C7: the extractor is a total function (never raises by construction);
on the fenced example it yields the bare SELECT statement with fences and
semicolon stripped; and when no line starts with SELECT it returns the
trimmed text unchanged — in particular exactly the trimmed raw input
whenever the input carries no markdown fence. -/
theorem extract_sql_spec :
    (_extract_sql_from_response "```sql\nSELECT * FROM users\n```" = "SELECT * FROM users")
    ∧ (∀ r : String,
        (∀ line ∈ pySplitNL (defencedText r), isSelectLine line = false) →
        _extract_sql_from_response r = pyStrip (defencedText r))
    ∧ (∀ r : String,
        pyStartsWith (pyStrip r) "```" = false →
        (∀ line ∈ pySplitNL (pyStrip r), isSelectLine line = false) →
        _extract_sql_from_response r = pyStrip r) := by
  refine ⟨by decide, fun r h => extract_sql_no_select r h, fun r hf h => ?_⟩
  have hdef : defencedText r = pyStrip r := by
    unfold defencedText
    rw [hf]
    rfl
  have := extract_sql_no_select r (by rw [hdef]; exact h)
  rw [hdef] at this
  rw [this, pyStrip_idem]

/-- C7 witness: an answer with no SELECT line and no fence is passed through
stripped. -/
theorem extract_sql_spec_witness :
    _extract_sql_from_response " no sql could be produced " = "no sql could be produced" :=
  extract_sql_spec.2.2 " no sql could be produced " (by decide) (by decide)

/-- The fallback loop never removes a kept field. -/
theorem mem_appendFallbacks_base (cols : List String) (f : String) :
    ∀ (fs best : List String), f ∈ best → f ∈ appendFallbacks cols best fs := by
  intro fs
  induction fs with
  | nil => intro best h; exact h
  | cons g gs ih =>
    intro best h
    unfold appendFallbacks
    apply ih
    split
    · exact List.mem_append.2 (Or.inl h)
    · exact h

/-- Every fallback name that occurs among the columns ends up in the kept
field list. -/
theorem mem_appendFallbacks (cols : List String) (f : String) (hc : f ∈ cols) :
    ∀ (fs best : List String), f ∈ fs → f ∈ appendFallbacks cols best fs := by
  intro fs
  induction fs with
  | nil => intro best h; cases h
  | cons g gs ih =>
    intro best h
    rcases List.mem_cons.1 h with rfl | hgs
    · unfold appendFallbacks
      by_cases hb : best.contains f = true
      · apply mem_appendFallbacks_base
        split
        · exact List.mem_append.2 (Or.inl (contains_string_iff.1 hb))
        · exact contains_string_iff.1 hb
      · have h1 : cols.contains f = true := contains_string_iff.2 hc
        have h2 : best.contains f = false := Bool.eq_false_iff.mpr hb
        rw [if_pos (by rw [h1, h2]; rfl)]
        exact mem_appendFallbacks_base cols f gs _
          (List.mem_append.2 (Or.inr (List.mem_singleton.2 rfl)))
    · unfold appendFallbacks
      exact ih _ hgs

/-- C8 (amended): for every scoring function, schema, question and k, each
element kept by the SQL slicer always carries the fallback identifier
fields id and element_id when the element has them, even when they score
too low for the top 8; the _id field is guaranteed only by the
document-store slicer, which appends exactly that fallback. -/
theorem select_relevant_keeps_id_fallbacks
    (score : String → String → ℚ) (schema : List (String × List Column))
    (question : String) (k : Nat) :
    (∀ t fields, (t, fields) ∈ select_relevant score schema question k →
      ∀ f, (f = "id" ∨ f = t ++ "_id") → f ∈ schemaColsOf schema t → f ∈ fields)
    ∧ (∀ c fields, (c, fields) ∈ select_relevant_mongo score schema question k →
      "_id" ∈ schemaColsOf schema c → "_id" ∈ fields) := by
  constructor
  · intro t fields hmem f hf hcol
    simp only [select_relevant, List.mem_map] at hmem
    obtain ⟨t', _ht', heq⟩ := hmem
    rw [Prod.mk.injEq] at heq
    obtain ⟨rfl, rfl⟩ := heq
    apply mem_appendFallbacks _ _ hcol
    rcases hf with rfl | rfl
    · exact List.mem_cons_self _ _
    · exact List.mem_cons_of_mem _ (List.mem_singleton.2 rfl)
  · intro c fields hmem hcol
    simp only [select_relevant_mongo, List.mem_map] at hmem
    obtain ⟨c', _hc', heq⟩ := hmem
    rw [Prod.mk.injEq] at heq
    obtain ⟨rfl, rfl⟩ := heq
    exact mem_appendFallbacks _ _ hcol _ _ (List.mem_singleton.2 rfl)

/-- Model of the rapidfuzz partial-ratio values on the concrete strings of
the C8 instances: a pair where one side embeds in the other as an exact
substring scores 100, and the fully character-disjoint pairs used here
score 0. -/
def exampleScore (a b : String) : ℚ := if pyIn b a || pyIn a b then 100 else 0

/-- A nine-column table whose eight z-columns match the question and whose
_id column does not. -/
def exampleSchema : List (String × List Column) :=
  [("t", [⟨"az", "text", true⟩, ⟨"bz", "text", true⟩, ⟨"cz", "text", true⟩,
          ⟨"dz", "text", true⟩, ⟨"ez", "text", true⟩, ⟨"fz", "text", true⟩,
          ⟨"gz", "text", true⟩, ⟨"hz", "text", true⟩, ⟨"_id", "text", true⟩])]

/-- The same table with an id column in place of _id. -/
def witnessSchema : List (String × List Column) :=
  [("t", [⟨"az", "text", true⟩, ⟨"bz", "text", true⟩, ⟨"cz", "text", true⟩,
          ⟨"dz", "text", true⟩, ⟨"ez", "text", true⟩, ⟨"fz", "text", true⟩,
          ⟨"gz", "text", true⟩, ⟨"hz", "text", true⟩, ⟨"id", "int", false⟩])]

/-- C8 counterexample: the SQL slicer keeps the eight best-scoring columns
and drops the low-scoring _id column even though the table has it, because
its fallback list contains only id and table_id. -/
theorem select_relevant_drops_underscore_id :
    select_relevant exampleScore exampleSchema "z" 4
      = [("t", ["az", "bz", "cz", "dz", "ez", "fz", "gz", "hz"])]
    ∧ "_id" ∈ schemaColsOf exampleSchema "t"
    ∧ "_id" ∉ (["az", "bz", "cz", "dz", "ez", "fz", "gz", "hz"] : List String) := by
  refine ⟨by decide, by decide, by decide⟩

/-- C8 witness: a low-scoring id column is appended back to the kept
fields. -/
theorem select_relevant_keeps_id_fallbacks_witness :
    "id" ∈ (["az", "bz", "cz", "dz", "ez", "fz", "gz", "hz", "id"] : List String) :=
  (select_relevant_keeps_id_fallbacks exampleScore witnessSchema "z" 4).1
    "t" ["az", "bz", "cz", "dz", "ez", "fz", "gz", "hz", "id"]
    (by decide) "id" (Or.inl rfl) (by decide)

/-- Boolean containment agrees with membership for any lawful equality. -/
theorem contains_iff_mem {α : Type} [BEq α] [LawfulBEq α] (l : List α) (a : α) :
    l.contains a = true ↔ a ∈ l := by
  simp [List.contains_iff_exists_mem_beq]

/-- find? returns the match of least index. -/
theorem find?_indexOf_le {α : Type} [DecidableEq α] (l : List α) (p : α → Bool) (a : α)
    (h : l.find? p = some a) :
    ∀ b ∈ l, p b = true → l.indexOf a ≤ l.indexOf b := by
  induction l with
  | nil => cases h
  | cons x t ih =>
    by_cases hx : p x = true
    · rw [List.find?_cons_of_pos _ hx] at h
      cases h
      intro b _ _
      rw [List.indexOf_cons_self]
      exact Nat.zero_le _
    · rw [List.find?_cons_of_neg _ (by simpa using hx)] at h
      have hpa := List.find?_some h
      have hax : a ≠ x := fun hax => hx (hax ▸ hpa)
      intro b hb hpb
      rcases List.mem_cons.1 hb with rfl | hbt
      · exact absurd hpb hx
      · have hbx : b ≠ x := fun hbx => hx (hbx ▸ hpb)
        rw [List.indexOf_cons_ne _ (Ne.symm hax), List.indexOf_cons_ne _ (Ne.symm hbx)]
        exact Nat.succ_le_succ (ih h b hbt hpb)

/-- C9: with no fired detector, analyze_query_intent returns SIMPLE_SELECT
at confidence exactly 0.8; otherwise its intent is the highest-priority
fired intent under the fixed order window-function, grouped-aggregation,
aggregation, join, ranking, complex-filter, filtered, sorted, limited —
falling back to the first fired intent when none of those fired — and its
confidence is min(0.95, 0.7 plus 0.05 times the number of fired
detections). -/
theorem analyze_query_intent_spec (question : String)
    (ctx : Option (List (String × List String))) :
    (detectIntents question ctx = [] →
      analyze_query_intent question ctx = ⟨.simpleSelect, 8/10⟩)
    ∧ (detectIntents question ctx ≠ [] →
        (analyze_query_intent question ctx).confidence
          = min (95/100)
              (7/10 + ((detectIntents question ctx).length : ℚ) * (5/100))
        ∧ (analyze_query_intent question ctx).intent ∈ detectIntents question ctx
        ∧ (∀ p ∈ priority_order, p ∈ detectIntents question ctx →
            (analyze_query_intent question ctx).intent ∈ priority_order
            ∧ priority_order.indexOf (analyze_query_intent question ctx).intent
                ≤ priority_order.indexOf p)
        ∧ ((∀ p ∈ priority_order, p ∉ detectIntents question ctx) →
            (detectIntents question ctx).head?
              = some (analyze_query_intent question ctx).intent)) := by
  cases hd : detectIntents question ctx with
  | nil =>
    constructor
    · intro _
      unfold analyze_query_intent
      rw [hd]
    · intro hne
      exact absurd rfl hne
  | cons first rest =>
    constructor
    · intro h0
      exact absurd h0 (List.cons_ne_nil first rest)
    · intro _
      have hana : analyze_query_intent question ctx
          = ⟨(priority_order.find? (fun p => (first :: rest).contains p)).getD first,
             min (95/100) (7/10 + ((first :: rest).length : ℚ) * (5/100))⟩ := by
        unfold analyze_query_intent
        rw [hd]
      have hconf : (analyze_query_intent question ctx).confidence
          = min (95/100) (7/10 + ((first :: rest).length : ℚ) * (5/100)) := by
        rw [hana]
      rcases hfind : priority_order.find? (fun p => (first :: rest).contains p)
          with _ | prim
      · have hint : (analyze_query_intent question ctx).intent = first := by
          rw [hana, hfind]
          rfl
        refine ⟨hconf, ?_, ?_, ?_⟩
        · rw [hint]
          exact List.mem_cons_self _ _
        · intro p hp hpin
          exfalso
          rw [List.find?_eq_none] at hfind
          have hnc := hfind p hp
          exact hnc ((contains_iff_mem _ _).2 hpin)
        · intro _
          rw [hint]
          rfl
      · have hint : (analyze_query_intent question ctx).intent = prim := by
          rw [hana, hfind]
          rfl
        have hmemp : prim ∈ first :: rest :=
          (contains_iff_mem _ _).1 (List.find?_some hfind)
        have hprio : prim ∈ priority_order := List.mem_of_find?_eq_some hfind
        refine ⟨hconf, ?_, ?_, ?_⟩
        · rw [hint]
          exact hmemp
        · intro p hp hpin
          refine ⟨by rw [hint]; exact hprio, ?_⟩
          rw [hint]
          exact find?_indexOf_le priority_order _ prim hfind p hp
            ((contains_iff_mem _ _).2 hpin)
        · intro habs
          exact absurd hmemp (habs prim hprio)

/-- C9 witness: on a concrete counting question one detector fires, the
primary intent is among the fired ones and the confidence follows the
formula. -/
theorem analyze_query_intent_spec_witness :
    (analyze_query_intent "how many users" none).confidence
      = min (95/100 : ℚ)
          (7/10 + ((detectIntents "how many users" none).length : ℚ) * (5/100))
    ∧ (analyze_query_intent "how many users" none).intent
        ∈ detectIntents "how many users" none := by
  have h := (analyze_query_intent_spec "how many users" none).2 (by decide)
  exact ⟨h.1, h.2.1⟩

end NLPSQLizer
